import Mathlib

/-!
Verification development for the GearShiftSystems inventory application.

The Python sources (src/models.py, src/app.py, src/cart.py) are embedded
shallowly:

* SQLAlchemy rows become Lean structures; the tables become lists of rows
  inside a single `State` record.  Row fields not touched by any property
  under study (names, SKUs, shelf locations, vendor links, timestamps other
  than their presence) are omitted; timestamps such as `received_at` are
  modelled by a Boolean "is set" flag, which is all the properties inspect.
* Python `int` becomes `Int` (it is unbounded), `float` prices become `ℚ`
  (the concrete monetary values appearing in the properties are exact in
  both binary doubles and ℚ, e.g. 8.49 * 3 == 25.47 holds in IEEE doubles).
* Each Flask POST handler becomes a function from `State` (plus the parsed
  form data) to `State` together with an outcome value; a handler that
  redirects before `db.session.commit()` and before any ORM mutation leaves
  the state unchanged, which the embedding returns `s` for.
* Dict-shaped inputs (the session cart, the `receive_<id>` form fields) are
  modelled as association lists looked up by key; a real dict has distinct
  keys, which appears as a `Nodup` hypothesis where a property needs it.
-/

namespace GearShift

/-- PO lifecycle states, from the `status` column comment in
`models.PurchaseOrder` and the route handlers in src/app.py. -/
inductive POStatus
  | DRAFT
  | APPROVED
  | SENT
  | PARTIALLY_RECEIVED
  | RECEIVED
  | CANCELED
deriving DecidableEq, Repr

/-- `models.Part` — id, price, stock, reorder_threshold.  String fields
(name, sku, shelf_location) and the vendor link play no role in the
properties under study and are omitted. -/
structure Part where
  id : Nat
  price : ℚ
  stock : Int
  reorder_threshold : Int
deriving DecidableEq, Repr

/-- `models.StockMovement` — the append-only stock ledger row
(`qty_delta` is signed: +in / -out). -/
structure StockMovement where
  product_id : Nat
  qty_delta : Int
  reason : String
  ref_type : Option String
  ref_id : Option Nat
deriving DecidableEq, Repr

/-- `models.Order` — a sales order created by checkout. -/
structure Order where
  id : Nat
  status : String
  total_amount : ℚ
deriving DecidableEq, Repr

/-- `models.OrderItem` — a sales-order line with price/quantity snapshot. -/
structure OrderItem where
  order_id : Nat
  part_id : Nat
  unit_price : ℚ
  quantity : Int
  line_total : ℚ
deriving DecidableEq, Repr

/-- `models.PurchaseOrderItem` — a PO line. -/
structure POItem where
  id : Nat
  product_id : Nat
  qty_ordered : Int
  qty_received : Int
deriving DecidableEq, Repr

/-- `models.PurchaseOrder` — the `*_at` timestamps are modelled only by
whether they have been set. -/
structure PurchaseOrder where
  id : Nat
  status : POStatus
  items : List POItem
  approved_at_set : Bool
  sent_at_set : Bool
  received_at_set : Bool
deriving DecidableEq, Repr

/-- The persistent tables of the application plus the next sales-order
primary key (`db.session.flush()` assigns it at checkout). -/
structure State where
  parts : List Part
  pos : List PurchaseOrder
  orders : List Order
  orderItems : List OrderItem
  movements : List StockMovement
  next_order_id : Nat
deriving DecidableEq, Repr

/-- Row lookup by primary key (`Part.query.get` / `find?` over the table). -/
def lookupPart (parts : List Part) (pid : Nat) : Option Part :=
  parts.find? (fun p => p.id = pid)

/-- Stock of the part with the given id, 0 if absent (used to state
properties; the operations themselves never rely on the default). -/
def partsStock (parts : List Part) (pid : Nat) : Int :=
  match lookupPart parts pid with
  | none => 0
  | some p => p.stock

/-- Sum of the ledger deltas recorded for one part. -/
def movSum (ms : List StockMovement) (pid : Nat) : Int :=
  (ms.map (fun m => if m.product_id = pid then m.qty_delta else 0)).sum

/-- `Part.is_low_stock` (src/models.py): `stock <= reorder_threshold`. -/
def is_low_stock (p : Part) : Bool :=
  p.stock ≤ p.reorder_threshold

/-- Modelled from the spec: `suggested_reorder_qty(part)` (spec §4.1).  The
suggested-quantity computation is referenced by the reorder-draft page but
its code lives in the HTML template, which is not among the provided source
files; the definition follows the spec's words: 0 when not low-stock,
otherwise `max(max(reorder_threshold * 2, stock + 1) - stock, 1)`. -/
def suggested_reorder_qty (p : Part) : Int :=
  if is_low_stock p then
    max (max (p.reorder_threshold * 2) (p.stock + 1) - p.stock) 1
  else 0

/-! ## Cart and checkout (src/cart.py) -/

/-- `_cart_items` (src/cart.py): resolve each cart entry against the parts
table, silently dropping entries whose part does not exist; the quantity is
clamped with `max(0, int(qty or 0))` and the line total is price × qty. -/
def cartItems (parts : List Part) (cart : List (Nat × Int)) :
    List (Part × Int × ℚ) :=
  cart.filterMap (fun kv =>
    match lookupPart parts kv.1 with
    | none => none
    | some part =>
      let q : Int := max 0 kv.2
      some (part, q, part.price * (q : ℚ)))

inductive CheckoutOutcome
  | EmptyCart
  | InsufficientStock
  | Placed (order_id : Nat)
deriving DecidableEq, Repr

/-- `checkout_submit` (src/cart.py).  Empty resolved cart → redirect, no
change.  Any line with `qty > part.stock` → redirect ("Not enough stock"),
no change (validation happens before any ORM mutation).  Otherwise: create
the Order (flush assigns its id), snapshot OrderItems, set
`total_amount = Σ line_total`, decrement each part's stock by its quantity,
and commit.  Note: this handler appends no StockMovement rows. -/
def checkout_submit (s : State) (cart : List (Nat × Int)) :
    State × CheckoutOutcome :=
  let items := cartItems s.parts cart
  if items.isEmpty then (s, .EmptyCart)
  else if items.any (fun t => t.1.stock < t.2.1) then (s, .InsufficientStock)
  else
    let oid := s.next_order_id
    let order_total : ℚ := (items.map (fun t => t.2.2)).sum
    let order : Order := { id := oid, status := "paid", total_amount := order_total }
    let newItems : List OrderItem :=
      items.map (fun t =>
        { order_id := oid, part_id := t.1.id, unit_price := t.1.price
          quantity := t.2.1, line_total := t.2.2 })
    let parts2 := items.foldl
      (fun ps t => ps.map (fun p =>
        if p.id = t.1.id then { p with stock := p.stock - t.2.1 } else p))
      s.parts
    ({ s with
        parts := parts2
        orders := s.orders ++ [order]
        orderItems := s.orderItems ++ newItems
        next_order_id := oid + 1 }, .Placed oid)

/-- `edit_part` POST handler (src/app.py), on the path where the SKU check
passes: the parsed form integers are written straight onto the part with no
range check (`part.stock = _i(request.form.get("stock", "0"))`).  Fields not
modelled (name, sku, shelf, vendor) are omitted. -/
def edit_part (s : State) (pid : Nat) (newPrice : ℚ) (newStock : Int)
    (newThreshold : Int) : State :=
  { s with
      parts := s.parts.map (fun p =>
        if p.id = pid then
          { p with price := newPrice, stock := newStock
                   reorder_threshold := newThreshold }
        else p) }

/-! ## PO lifecycle (src/app.py) -/

/-- The only transition error the handlers report (a flash message plus a
redirect with no commit). -/
inductive TransErr
  | InvalidTransition
deriving DecidableEq, Repr

/-- `po_approve` (src/app.py): only DRAFT POs can be approved. -/
def po_approve (po : PurchaseOrder) : Except TransErr PurchaseOrder :=
  if po.status ≠ .DRAFT then .error .InvalidTransition
  else .ok { po with status := .APPROVED, approved_at_set := true }

/-- `po_send` (src/app.py): only DRAFT or APPROVED POs can be sent. -/
def po_send (po : PurchaseOrder) : Except TransErr PurchaseOrder :=
  if ¬(po.status = .APPROVED ∨ po.status = .DRAFT) then .error .InvalidTransition
  else .ok { po with status := .SENT, sent_at_set := true }

/-- `po_cancel` (src/app.py): received POs cannot be canceled; anything
else becomes CANCELED. -/
def po_cancel (po : PurchaseOrder) : Except TransErr PurchaseOrder :=
  if po.status = .RECEIVED then .error .InvalidTransition
  else .ok { po with status := .CANCELED }

/-- The `/pos/<id>/cancel` route: fetch the PO by id and apply `po_cancel`;
the failure branch flashes a warning and commits nothing. -/
def po_cancel_state (s : State) (po_id : Nat) : State :=
  { s with
      pos := s.pos.map (fun q =>
        if q.id = po_id then
          match po_cancel q with
          | .ok q' => q'
          | .error _ => q
        else q) }

/-! ## Receiving (src/app.py `po_receive`) -/

inductive ReceiveOutcome
  | NotFound
  | InvalidTransition
  | NothingToReceive
  | Received
deriving DecidableEq, Repr

/-- The parsed `receive_<item.id>` form fields: an association list from
item id to the submitted integer (absent/empty fields are absent keys). -/
def lookupForm (form : List (Nat × Int)) (k : Nat) : Option Int :=
  (form.find? (fun kv => kv.1 = k)).map (fun kv => kv.2)

/-- The requested delta for one line after the handler's clamping:
`delta = max(int(fval), 0)`, with a missing field counting as 0. -/
def reqOf (form : List (Nat × Int)) (it : POItem) : Int :=
  match lookupForm form it.id with
  | none => 0
  | some v => max v 0

/-- The quantity the handler actually applies to one line:
`min(delta, max(qty_ordered - qty_received, 0))`; every skip branch of the
loop (missing field, `delta <= 0`, `to_apply <= 0`) makes this 0. -/
def appliedQty (form : List (Nat × Int)) (it : POItem) : Int :=
  min (reqOf form it) (max (it.qty_ordered - it.qty_received) 0)

/-- A line after one receive call. -/
def applyLine (form : List (Nat × Int)) (it : POItem) : POItem :=
  { it with qty_received := it.qty_received + appliedQty form it }

/-- Loop state of the `for it in po.items` loop of `po_receive`:
the lines processed so far, the live parts table, the ledger, and the
`any_received` flag. -/
structure RecvAcc where
  items : List POItem
  parts : List Part
  movements : List StockMovement
  any_received : Bool
deriving DecidableEq, Repr

/-- One iteration of the `po_receive` loop (src/app.py): parse the form
field, clamp at 0, cap at remaining-to-receive, and if anything applies,
bump the line's `qty_received`, bump the part's stock, and append a
`StockMovement(+to_apply, "PO_RECEIVE", ref PO id)`. -/
def receiveStep (form : List (Nat × Int)) (po_id : Nat) (acc : RecvAcc)
    (it : POItem) : RecvAcc :=
  match lookupForm form it.id with
  | none => { acc with items := acc.items ++ [it] }
  | some v =>
    let delta := max v 0
    if delta ≤ 0 then { acc with items := acc.items ++ [it] }
    else
      let remaining := max (it.qty_ordered - it.qty_received) 0
      let to_apply := min delta remaining
      if to_apply ≤ 0 then { acc with items := acc.items ++ [it] }
      else
        { items := acc.items ++
            [{ it with qty_received := it.qty_received + to_apply }]
          parts := acc.parts.map (fun p =>
            if p.id = it.product_id then { p with stock := p.stock + to_apply }
            else p)
          movements := acc.movements ++
            [{ product_id := it.product_id, qty_delta := to_apply
               reason := "PO_RECEIVE", ref_type := some "PO"
               ref_id := some po_id }]
          any_received := true }

/-- Result of one `po_receive` call on a fetched PO. -/
structure RecvRes where
  po : PurchaseOrder
  parts : List Part
  movements : List StockMovement
  outcome : ReceiveOutcome
deriving DecidableEq, Repr

/-- Body of `po_receive` (src/app.py) for a fetched PO.  Status guard:
only SENT, APPROVED or PARTIALLY_RECEIVED POs may receive.  Then the line
loop runs; if no line applied anything the handler redirects with
"No quantities to receive" having mutated nothing.  Otherwise the status is
recomputed (`RECEIVED` iff every line has `qty_received >= qty_ordered`,
else `PARTIALLY_RECEIVED`) and `received_at` is stamped when the new status
is RECEIVED. -/
def po_receive_apply (po : PurchaseOrder) (parts : List Part)
    (movements : List StockMovement) (form : List (Nat × Int)) : RecvRes :=
  if ¬(po.status = .SENT ∨ po.status = .APPROVED ∨
      po.status = .PARTIALLY_RECEIVED) then
    ⟨po, parts, movements, .InvalidTransition⟩
  else
    let acc := po.items.foldl (receiveStep form po.id) ⟨[], parts, movements, false⟩
    if acc.any_received = false then
      ⟨po, parts, movements, .NothingToReceive⟩
    else
      let all_full := acc.items.all (fun li => li.qty_ordered ≤ li.qty_received)
      let newStatus : POStatus := if all_full then .RECEIVED else .PARTIALLY_RECEIVED
      ⟨{ po with
          items := acc.items
          status := newStatus
          received_at_set := if newStatus = .RECEIVED then true else po.received_at_set },
        acc.parts, acc.movements, .Received⟩

/-- The `/pos/<id>/receive` route: fetch the PO by id (404 leaves the state
unchanged), run the body, and commit only when something was received (the
guard-failure and nothing-to-receive branches redirect without having
mutated any row). -/
def po_receive (s : State) (po_id : Nat) (form : List (Nat × Int)) :
    State × ReceiveOutcome :=
  match s.pos.find? (fun q => q.id = po_id) with
  | none => (s, .NotFound)
  | some po =>
    let r := po_receive_apply po s.parts s.movements form
    match r.outcome with
    | .Received =>
      ({ s with
          parts := r.parts
          movements := r.movements
          pos := s.pos.map (fun q => if q.id = po_id then r.po else q) },
        .Received)
    | out => (s, out)

/-- A sequence of receive calls (po id and form data per call). -/
def applyReceives (s : State) (calls : List (Nat × List (Nat × Int))) : State :=
  calls.foldl (fun st c => (po_receive st c.1 c.2).1) s

/-! ## Concrete states used by the scenario checks -/

/-- The part of the spec's checkout example: stock 12, price 8.49. -/
def exPart : Part := ⟨1, 849/100, 12, 5⟩

/-- A one-part store with no orders, POs or ledger entries. -/
def exState : State := ⟨[exPart], [], [], [], [], 1⟩

/-- A SENT purchase order with a single line of `qty_ordered = 10`. -/
def scenPO : PurchaseOrder := ⟨7, .SENT, [⟨1, 1, 10, 0⟩], false, true, false⟩

/-- The store the single-line PO draws from (part 1, stock 0). -/
def scenParts : List Part := [⟨1, 0, 0, 5⟩]

/-- State holding `scenPO` and its part. -/
def c8State : State := ⟨scenParts, [scenPO], [], [], [], 1⟩

/-- `c8State` after receiving the full ordered quantity in one call. -/
def c8After : State := (po_receive c8State 7 [(1, 10)]).1

/-- A PARTIALLY_RECEIVED two-line PO: line 1 fully received, line 2 open. -/
def wPO : PurchaseOrder :=
  ⟨9, .PARTIALLY_RECEIVED, [⟨1, 1, 10, 10⟩, ⟨2, 2, 5, 0⟩], false, true, false⟩

/-- State holding `wPO` and its two parts. -/
def wState : State := ⟨[⟨1, 0, 10, 5⟩, ⟨2, 0, 0, 5⟩], [wPO], [], [], [], 1⟩

/-! ## Properties of the receive loop -/

lemma reqOf_nonneg (form : List (Nat × Int)) (it : POItem) : 0 ≤ reqOf form it := by
  unfold reqOf
  cases h : lookupForm form it.id
  · simp
  · dsimp only
    omega

lemma appliedQty_nonneg (form : List (Nat × Int)) (it : POItem) :
    0 ≤ appliedQty form it := by
  have := reqOf_nonneg form it
  unfold appliedQty
  omega

lemma appliedQty_le_remaining (form : List (Nat × Int)) (it : POItem) :
    appliedQty form it ≤ max (it.qty_ordered - it.qty_received) 0 := by
  unfold appliedQty
  omega

lemma applyLine_zero (form : List (Nat × Int)) (it : POItem)
    (h : appliedQty form it = 0) : applyLine form it = it := by
  simp [applyLine, h]

/-- The loop body, rephrased through `appliedQty`: a line with
`appliedQty = 0` only gets copied; otherwise exactly `appliedQty` is
applied to the line, the part and the ledger, and `any_received` is set. -/
lemma receiveStep_eq (form : List (Nat × Int)) (po_id : Nat) (acc : RecvAcc)
    (it : POItem) :
    receiveStep form po_id acc it =
      if appliedQty form it = 0 then { acc with items := acc.items ++ [it] }
      else
        { items := acc.items ++ [applyLine form it]
          parts := acc.parts.map (fun p =>
            if p.id = it.product_id then
              { p with stock := p.stock + appliedQty form it }
            else p)
          movements := acc.movements ++
            [{ product_id := it.product_id, qty_delta := appliedQty form it
               reason := "PO_RECEIVE", ref_type := some "PO"
               ref_id := some po_id }]
          any_received := true } := by
  unfold receiveStep
  cases h : lookupForm form it.id with
  | none =>
    have hr : reqOf form it = 0 := by
      unfold reqOf
      rw [h]
    have h0 : appliedQty form it = 0 := by
      unfold appliedQty
      rw [hr]
      omega
    rw [if_pos h0]
  | some v =>
    have hreq : reqOf form it = max v 0 := by
      unfold reqOf
      rw [h]
    dsimp only
    by_cases h1 : max v 0 ≤ 0
    · have h0 : appliedQty form it = 0 := by
        unfold appliedQty
        rw [hreq]
        omega
      rw [if_pos h1, if_pos h0]
    · rw [if_neg h1]
      by_cases h2 : min (max v 0) (max (it.qty_ordered - it.qty_received) 0) ≤ 0
      · have h0 : appliedQty form it = 0 := by
          unfold appliedQty
          rw [hreq]
          omega
        rw [if_pos h2, if_pos h0]
      · have h0 : appliedQty form it
            = min (max v 0) (max (it.qty_ordered - it.qty_received) 0) := by
          unfold appliedQty
          rw [hreq]
        rw [if_neg h2, if_neg (by rw [h0]; omega)]
        unfold applyLine
        rw [h0]

/-- Feeding the loop a list of lines appends exactly their per-line images. -/
lemma foldl_receiveStep_items (form : List (Nat × Int)) (poid : Nat)
    (l : List POItem) : ∀ acc : RecvAcc,
    (l.foldl (receiveStep form poid) acc).items
      = acc.items ++ l.map (applyLine form) := by
  induction l with
  | nil => intro acc; simp
  | cons it l ih =>
    intro acc
    rw [List.foldl_cons, ih, receiveStep_eq]
    by_cases h : appliedQty form it = 0
    · rw [if_pos h, List.map_cons, applyLine_zero form it h]
      simp
    · rw [if_neg h, List.map_cons]
      simp

lemma foldl_receiveStep_any_mono (form : List (Nat × Int)) (poid : Nat)
    (l : List POItem) : ∀ acc : RecvAcc, acc.any_received = true →
    (l.foldl (receiveStep form poid) acc).any_received = true := by
  induction l with
  | nil => intro acc h; simpa using h
  | cons it l ih =>
    intro acc h
    rw [List.foldl_cons]
    apply ih
    rw [receiveStep_eq]
    by_cases h0 : appliedQty form it = 0
    · rw [if_pos h0]
      exact h
    · rw [if_neg h0]

/-- If the whole loop reports nothing received, every line's applied
quantity was 0. -/
lemma foldl_receiveStep_any_false (form : List (Nat × Int)) (poid : Nat)
    (l : List POItem) : ∀ acc : RecvAcc,
    (l.foldl (receiveStep form poid) acc).any_received = false →
    acc.any_received = false ∧ ∀ it ∈ l, appliedQty form it = 0 := by
  induction l with
  | nil =>
    intro acc h
    exact ⟨by simpa using h, by simp⟩
  | cons it l ih =>
    intro acc h
    rw [List.foldl_cons] at h
    by_cases h0 : appliedQty form it = 0
    · obtain ⟨h1, h2⟩ := ih _ h
      rw [receiveStep_eq, if_pos h0] at h1
      refine ⟨by simpa using h1, ?_⟩
      intro x hx
      rcases List.mem_cons.mp hx with hx | hx
      · rw [hx]
        exact h0
      · exact h2 x hx
    · exfalso
      have htrue : (receiveStep form poid acc it).any_received = true := by
        rw [receiveStep_eq, if_neg h0]
      have := foldl_receiveStep_any_mono form poid l _ htrue
      rw [this] at h
      simp at h

/-- A loop in which every line is inapplicable only copies the lines. -/
lemma foldl_receiveStep_noop (form : List (Nat × Int)) (poid : Nat)
    (l : List POItem) (hz : ∀ it ∈ l, appliedQty form it = 0) :
    ∀ acc : RecvAcc,
    l.foldl (receiveStep form poid) acc = { acc with items := acc.items ++ l } := by
  induction l with
  | nil => intro acc; simp
  | cons it l ih =>
    intro acc
    rw [List.foldl_cons, receiveStep_eq, if_pos (hz it (by simp))]
    rw [ih (fun x hx => hz x (List.mem_cons_of_mem it hx))]
    simp

lemma receiveStep_parts_ids (form : List (Nat × Int)) (poid : Nat)
    (acc : RecvAcc) (it : POItem) :
    ((receiveStep form poid acc it).parts).map (fun p => p.id)
      = acc.parts.map (fun p => p.id) := by
  rw [receiveStep_eq]
  by_cases h : appliedQty form it = 0
  · rw [if_pos h]
  · rw [if_neg h]
    dsimp only
    rw [List.map_map]
    apply List.map_congr_left
    intro p _
    dsimp [Function.comp]
    split <;> rfl

lemma foldl_receiveStep_parts_ids (form : List (Nat × Int)) (poid : Nat)
    (l : List POItem) : ∀ acc : RecvAcc,
    ((l.foldl (receiveStep form poid) acc).parts).map (fun p => p.id)
      = acc.parts.map (fun p => p.id) := by
  induction l with
  | nil => intro acc; rfl
  | cons it l ih =>
    intro acc
    rw [List.foldl_cons, ih, receiveStep_parts_ids]

lemma exists_id_of_ids_eq {ps qs : List Part}
    (h : qs.map (fun p => p.id) = ps.map (fun p => p.id)) {pid : Nat}
    (hex : ∃ p ∈ ps, p.id = pid) : ∃ p ∈ qs, p.id = pid := by
  obtain ⟨p0, hmem, hid⟩ := hex
  have hin : pid ∈ ps.map (fun p => p.id) := List.mem_map.mpr ⟨p0, hmem, hid⟩
  rw [← h] at hin
  exact List.mem_map.mp hin

lemma movSum_append (ms : List StockMovement) (m : StockMovement) (pid : Nat) :
    movSum (ms ++ [m]) pid
      = movSum ms pid + (if m.product_id = pid then m.qty_delta else 0) := by
  simp [movSum]

lemma lookupPart_map_bump (ps : List Part) (pid q : Nat) (d : Int) :
    lookupPart (ps.map (fun p =>
        if p.id = q then { p with stock := p.stock + d } else p)) pid
      = (lookupPart ps pid).map (fun p =>
        if p.id = q then { p with stock := p.stock + d } else p) := by
  unfold lookupPart
  have hcomp : ((fun p : Part => decide (p.id = pid)) ∘ (fun p =>
      if p.id = q then { p with stock := p.stock + d } else p))
      = (fun p : Part => decide (p.id = pid)) := by
    funext p
    by_cases hp : p.id = q <;> simp [Function.comp, hp]
  rw [List.find?_map, hcomp]

lemma partsStock_map_bump (ps : List Part) (pid q : Nat) (d : Int)
    (hex : ∃ p ∈ ps, p.id = pid) :
    partsStock (ps.map (fun p =>
        if p.id = q then { p with stock := p.stock + d } else p)) pid
      = partsStock ps pid + (if q = pid then d else 0) := by
  unfold partsStock
  rw [lookupPart_map_bump]
  cases hfind : lookupPart ps pid with
  | none =>
    exfalso
    obtain ⟨p0, hmem, hid⟩ := hex
    unfold lookupPart at hfind
    rw [List.find?_eq_none] at hfind
    exact hfind p0 hmem (by simpa using hid)
  | some p1 =>
    have hid1 : p1.id = pid := by
      have h' := List.find?_some
        (show List.find? (fun p : Part => decide (p.id = pid)) ps = some p1 from hfind)
      simpa using h'
    dsimp only [Option.map_some']
    by_cases hq : q = pid
    · rw [if_pos (show p1.id = q by rw [hid1, hq]), if_pos hq]
    · rw [if_neg (show ¬p1.id = q from fun hh => hq (by rw [← hh, hid1])),
        if_neg hq]
      simp

lemma receiveStep_balance (form : List (Nat × Int)) (poid : Nat)
    (acc : RecvAcc) (it : POItem) (pid : Nat)
    (hex : ∃ p ∈ acc.parts, p.id = pid) :
    partsStock (receiveStep form poid acc it).parts pid
        - movSum (receiveStep form poid acc it).movements pid
      = partsStock acc.parts pid - movSum acc.movements pid := by
  rw [receiveStep_eq]
  by_cases h : appliedQty form it = 0
  · rw [if_pos h]
  · rw [if_neg h]
    dsimp only
    rw [partsStock_map_bump _ _ _ _ hex, movSum_append]
    dsimp only
    by_cases hq : it.product_id = pid <;> simp [hq]

lemma foldl_receiveStep_balance (form : List (Nat × Int)) (poid : Nat)
    (l : List POItem) (pid : Nat) : ∀ acc : RecvAcc,
    (∃ p ∈ acc.parts, p.id = pid) →
    partsStock (l.foldl (receiveStep form poid) acc).parts pid
        - movSum (l.foldl (receiveStep form poid) acc).movements pid
      = partsStock acc.parts pid - movSum acc.movements pid := by
  induction l with
  | nil => intro acc _; rfl
  | cons it l ih =>
    intro acc hex
    rw [List.foldl_cons]
    have hex' : ∃ p ∈ (receiveStep form poid acc it).parts, p.id = pid :=
      exists_id_of_ids_eq (receiveStep_parts_ids form poid acc it) hex
    rw [ih _ hex', receiveStep_balance form poid acc it pid hex]

lemma receiveStep_parts_nonneg (form : List (Nat × Int)) (poid : Nat)
    (acc : RecvAcc) (it : POItem) (h0 : ∀ p ∈ acc.parts, 0 ≤ p.stock) :
    ∀ p ∈ (receiveStep form poid acc it).parts, 0 ≤ p.stock := by
  rw [receiveStep_eq]
  by_cases h : appliedQty form it = 0
  · rw [if_pos h]
    exact h0
  · rw [if_neg h]
    dsimp only
    intro p hp
    obtain ⟨p0, hp0, rfl⟩ := List.mem_map.mp hp
    have ha := appliedQty_nonneg form it
    have hs := h0 p0 hp0
    by_cases hq : p0.id = it.product_id
    · rw [if_pos hq]
      dsimp only
      omega
    · rw [if_neg hq]
      exact hs

lemma foldl_receiveStep_parts_nonneg (form : List (Nat × Int)) (poid : Nat)
    (l : List POItem) : ∀ acc : RecvAcc, (∀ p ∈ acc.parts, 0 ≤ p.stock) →
    ∀ p ∈ (l.foldl (receiveStep form poid) acc).parts, 0 ≤ p.stock := by
  induction l with
  | nil => intro acc h0; exact h0
  | cons it l ih =>
    intro acc h0
    rw [List.foldl_cons]
    exact ih _ (receiveStep_parts_nonneg form poid acc it h0)

/-! ## Lifting the loop facts to `po_receive_apply` and `po_receive` -/

lemma po_receive_apply_balance (po : PurchaseOrder) (parts : List Part)
    (movements : List StockMovement) (form : List (Nat × Int)) (pid : Nat)
    (hex : ∃ p ∈ parts, p.id = pid) :
    partsStock (po_receive_apply po parts movements form).parts pid
        - movSum (po_receive_apply po parts movements form).movements pid
      = partsStock parts pid - movSum movements pid := by
  unfold po_receive_apply
  split
  · rfl
  · dsimp only
    split
    · rfl
    · dsimp only
      exact foldl_receiveStep_balance form po.id po.items pid
        ⟨[], parts, movements, false⟩ hex

lemma po_receive_apply_parts_ids (po : PurchaseOrder) (parts : List Part)
    (movements : List StockMovement) (form : List (Nat × Int)) :
    ((po_receive_apply po parts movements form).parts).map (fun p => p.id)
      = parts.map (fun p => p.id) := by
  unfold po_receive_apply
  split
  · rfl
  · dsimp only
    split
    · rfl
    · dsimp only
      exact foldl_receiveStep_parts_ids form po.id po.items
        ⟨[], parts, movements, false⟩

lemma po_receive_apply_parts_nonneg (po : PurchaseOrder) (parts : List Part)
    (movements : List StockMovement) (form : List (Nat × Int))
    (h0 : ∀ p ∈ parts, 0 ≤ p.stock) :
    ∀ p ∈ (po_receive_apply po parts movements form).parts, 0 ≤ p.stock := by
  unfold po_receive_apply
  split
  · exact h0
  · dsimp only
    split
    · exact h0
    · dsimp only
      exact foldl_receiveStep_parts_nonneg form po.id po.items
        ⟨[], parts, movements, false⟩ h0

lemma po_receive_balance (s : State) (po_id : Nat) (form : List (Nat × Int))
    (pid : Nat) (hex : ∃ p ∈ s.parts, p.id = pid) :
    partsStock (po_receive s po_id form).1.parts pid
        - movSum (po_receive s po_id form).1.movements pid
      = partsStock s.parts pid - movSum s.movements pid := by
  unfold po_receive
  cases hfind : s.pos.find? (fun q => q.id = po_id) with
  | none => rfl
  | some po =>
    dsimp only
    split
    · dsimp only
      exact po_receive_apply_balance po s.parts s.movements form pid hex
    · rfl

lemma po_receive_parts_ids (s : State) (po_id : Nat) (form : List (Nat × Int)) :
    ((po_receive s po_id form).1.parts).map (fun p => p.id)
      = s.parts.map (fun p => p.id) := by
  unfold po_receive
  cases hfind : s.pos.find? (fun q => q.id = po_id) with
  | none => rfl
  | some po =>
    dsimp only
    split
    · dsimp only
      exact po_receive_apply_parts_ids po s.parts s.movements form
    · rfl

lemma po_receive_parts_nonneg (s : State) (po_id : Nat)
    (form : List (Nat × Int)) (h0 : ∀ p ∈ s.parts, 0 ≤ p.stock) :
    ∀ p ∈ (po_receive s po_id form).1.parts, 0 ≤ p.stock := by
  unfold po_receive
  cases hfind : s.pos.find? (fun q => q.id = po_id) with
  | none => exact h0
  | some po =>
    dsimp only
    split
    · dsimp only
      exact po_receive_apply_parts_nonneg po s.parts s.movements form h0
    · exact h0

/-! ## Claim C1 -/

/-- C1, counterexample.  A checkout of qty 3 on the part with stock 12 and
price 8.49 succeeds and leaves stock 9, yet the resulting ledger is empty:
no StockMovement(-3, SALE) — nor any movement at all — is recorded, so the
claim's "exactly one StockMovement(-3, SALE) exists" is false at this
input. -/
theorem C1_counterexample :
    (checkout_submit exState [(1, 3)]).2 = .Placed 1 ∧
    partsStock (checkout_submit exState [(1, 3)]).1.parts 1 = 9 ∧
    (checkout_submit exState [(1, 3)]).1.movements = [] ∧
    ¬ ∃ m ∈ (checkout_submit exState [(1, 3)]).1.movements,
        m.product_id = 1 ∧ m.reason = "SALE" ∧ m.qty_delta = -3 :=
  ⟨by decide, by decide, by decide, by decide⟩

/-- C1, amended.  Checkout decrements stock and records the order with
`total_amount` the sum of line totals (stock 12, price 8.49, qty 3 gives
stock 9 and total 25.47), but the checkout handler never appends a
StockMovement: the ledger is unchanged by every checkout. -/
theorem C1_checkout_no_sale_movement (s : State) (cart : List (Nat × Int)) :
    (checkout_submit s cart).1.movements = s.movements ∧
    (checkout_submit exState [(1, 3)]).2 = .Placed 1 ∧
    partsStock (checkout_submit exState [(1, 3)]).1.parts 1 = 9 ∧
    (checkout_submit exState [(1, 3)]).1.orders.map (fun o => o.total_amount)
      = [2547 / 100] ∧
    (checkout_submit exState [(1, 3)]).1.movements = [] := by
  refine ⟨?_, by decide, by decide, ?_, by decide⟩
  · unfold checkout_submit
    dsimp only
    split
    · rfl
    · split
      · rfl
      · rfl
  · simp [checkout_submit, cartItems, lookupPart, exState, exPart]
    norm_num

/-! ## Claim C2 -/

/-- C2, counterexample.  After a single checkout the part's initial stock
(12) plus the sum of all its ledger deltas (0 — the checkout wrote none)
is 12, while its current stock is 9, so the ledger-consistency invariant
fails after checkout. -/
theorem C2_counterexample :
    partsStock exState.parts 1 = 12 ∧
    (checkout_submit exState [(1, 3)]).2 = .Placed 1 ∧
    partsStock (checkout_submit exState [(1, 3)]).1.parts 1 = 9 ∧
    movSum (checkout_submit exState [(1, 3)]).1.movements 1 = 0 ∧
    partsStock exState.parts 1 + movSum (checkout_submit exState [(1, 3)]).1.movements 1
      ≠ partsStock (checkout_submit exState [(1, 3)]).1.parts 1 :=
  ⟨by decide, by decide, by decide, by decide, by decide⟩

/-- C2, amended.  The ledger-consistency invariant is maintained by the
receiving engine: across any sequence of receive calls, each existing
part's stock minus the sum of its ledger deltas is unchanged (equivalently
`initial_stock + Σ qty_delta = current_stock` keeps holding whenever it
held initially).  Checkout and part edits, by contrast, mutate stock
without appending StockMovements, so the invariant over *all* operations
fails (see the counterexample). -/
theorem C2_receive_preserves_ledger_balance (s : State)
    (calls : List (Nat × List (Nat × Int))) (pid : Nat)
    (hex : ∃ p ∈ s.parts, p.id = pid) :
    partsStock (applyReceives s calls).parts pid
        - movSum (applyReceives s calls).movements pid
      = partsStock s.parts pid - movSum s.movements pid := by
  induction calls generalizing s with
  | nil => rfl
  | cons c calls ih =>
    have hex' : ∃ p ∈ (po_receive s c.1 c.2).1.parts, p.id = pid :=
      exists_id_of_ids_eq (po_receive_parts_ids s c.1 c.2) hex
    have hstep := po_receive_balance s c.1 c.2 pid hex
    have htail := ih (po_receive s c.1 c.2).1 hex'
    unfold applyReceives at htail ⊢
    rw [List.foldl_cons, htail, hstep]

/-- C2, witness: one full receive of the single-line PO keeps the balance
of part 1. -/
theorem C2_witness :
    partsStock (applyReceives c8State [(7, [(1, 10)])]).parts 1
        - movSum (applyReceives c8State [(7, [(1, 10)])]).movements 1
      = partsStock c8State.parts 1 - movSum c8State.movements 1 :=
  C2_receive_preserves_ledger_balance c8State [(7, [(1, 10)])] 1 (by decide)

/-! ## Properties of the checkout decrement loop -/

lemma mem_cartItems {parts : List Part} {cart : List (Nat × Int)}
    {t : Part × Int × ℚ} (ht : t ∈ cartItems parts cart) :
    t.1 ∈ parts ∧ 0 ≤ t.2.1 ∧ ∃ kv ∈ cart, t.1.id = kv.1 := by
  unfold cartItems at ht
  obtain ⟨kv, hkv, hf⟩ := List.mem_filterMap.mp ht
  cases hfind : lookupPart parts kv.1 with
  | none =>
    rw [hfind] at hf
    simp at hf
  | some part =>
    rw [hfind] at hf
    dsimp only at hf
    have heq := Option.some.inj hf
    subst heq
    have hid : part.id = kv.1 := by
      have h' := List.find?_some
        (show List.find? (fun p : Part => decide (p.id = kv.1)) parts = some part
          from hfind)
      simpa using h'
    exact ⟨List.mem_of_find?_eq_some hfind, le_max_left 0 kv.2, kv, hkv, hid⟩

/-- The resolved cart lines carry pairwise distinct part ids whenever the
cart's keys are distinct (a session cart is a dict). -/
lemma cartItems_ids_sublist (parts : List Part) (cart : List (Nat × Int)) :
    ((cartItems parts cart).map (fun t => t.1.id)).Sublist
      (cart.map (fun kv => kv.1)) := by
  induction cart with
  | nil => simp [cartItems]
  | cons kv cart ih =>
    unfold cartItems
    rw [List.filterMap_cons]
    cases hfind : lookupPart parts kv.1 with
    | none =>
      dsimp only
      exact (ih).cons kv.1
    | some part =>
      dsimp only
      rw [List.map_cons]
      have hid : part.id = kv.1 := by
        have h' := List.find?_some
          (show List.find? (fun p : Part => decide (p.id = kv.1)) parts = some part
            from hfind)
        simpa using h'
      dsimp only
      rw [hid]
      exact (ih).cons₂ kv.1

/-- The stock-decrement loop commutes with mapping over the table: each
part receives a per-part fold of the decrements. -/
lemma checkout_fold_eq (items : List (Part × Int × ℚ)) : ∀ (xs : List Part),
    items.foldl (fun ps t => ps.map (fun p =>
      if p.id = t.1.id then { p with stock := p.stock - t.2.1 } else p)) xs
    = xs.map (fun p => items.foldl (fun a t =>
      if a.id = t.1.id then { a with stock := a.stock - t.2.1 } else a) p) := by
  induction items with
  | nil =>
    intro xs
    simp
  | cons t items ih =>
    intro xs
    rw [List.foldl_cons, ih, List.map_map]
    simp only [List.foldl_cons]
    simp [Function.comp]

lemma dec_foldl_no_match (items : List (Part × Int × ℚ)) : ∀ (a : Part),
    (∀ t ∈ items, t.1.id ≠ a.id) →
    items.foldl (fun a t =>
      if a.id = t.1.id then { a with stock := a.stock - t.2.1 } else a) a = a := by
  induction items with
  | nil => intro a _; rfl
  | cons t items ih =>
    intro a h
    rw [List.foldl_cons, if_neg (fun hh => h t (by simp) hh.symm)]
    exact ih a (fun x hx => h x (List.mem_cons_of_mem t hx))

/-- With pairwise distinct line ids (a dict cart) and every line validated
against the part's current stock, the decrements keep stock
non-negative. -/
lemma dec_foldl_nonneg (items : List (Part × Int × ℚ)) : ∀ (p : Part),
    0 ≤ p.stock →
    ((items.map (fun t => t.1.id)).Nodup) →
    (∀ t ∈ items, t.1.id = p.id → t.2.1 ≤ p.stock) →
    0 ≤ (items.foldl (fun a t =>
      if a.id = t.1.id then { a with stock := a.stock - t.2.1 } else a) p).stock := by
  induction items with
  | nil => intro p h _ _; exact h
  | cons t items ih =>
    intro p h0 hnodup hble
    rw [List.map_cons, List.nodup_cons] at hnodup
    obtain ⟨hnotin, hnd⟩ := hnodup
    rw [List.foldl_cons]
    by_cases hm : p.id = t.1.id
    · rw [if_pos hm]
      have hnom : ∀ x ∈ items,
          x.1.id ≠ ({ p with stock := p.stock - t.2.1 } : Part).id := by
        intro x hx hEq
        apply hnotin
        rw [← hm]
        dsimp at hEq
        rw [← hEq]
        exact List.mem_map.mpr ⟨x, hx, rfl⟩
      rw [dec_foldl_no_match items _ hnom]
      have hval := hble t (by simp) hm.symm
      dsimp only
      omega
    · rw [if_neg hm]
      apply ih p h0 hnd
      intro x hx hid
      exact hble x (List.mem_cons_of_mem t hx) hid

/-! ## Claim C3 -/

/-- C3, counterexample.  All stocks of `exState` are non-negative, but one
`edit_part` POST carrying the form value "-5" (parsed unchecked by `_i`)
drives the part's stock negative. -/
theorem C3_counterexample :
    (∀ p ∈ exState.parts, 0 ≤ p.stock) ∧
    ¬ (∀ p ∈ (edit_part exState 1 exPart.price (-5) 5).parts, 0 ≤ p.stock) :=
  ⟨by decide, by decide⟩

/-- C3, amended.  Non-negativity of stock is an invariant of checkout and
receiving (for a well-formed table — distinct part ids — and a dict-shaped
cart with distinct keys): if every part's stock is non-negative before,
it stays so after.  Part creation and editing, however, write the parsed
form integer with no range check, so a submitted negative stock violates
the claimed invariant (see the counterexample). -/
theorem C3_checkout_and_receive_keep_stock_nonneg (s : State)
    (cart : List (Nat × Int)) (po_id : Nat) (form : List (Nat × Int))
    (hw : (s.parts.map (fun p => p.id)).Nodup)
    (hc : (cart.map (fun kv => kv.1)).Nodup)
    (h0 : ∀ p ∈ s.parts, 0 ≤ p.stock) :
    (∀ p ∈ (checkout_submit s cart).1.parts, 0 ≤ p.stock) ∧
    (∀ p ∈ (po_receive s po_id form).1.parts, 0 ≤ p.stock) := by
  constructor
  · unfold checkout_submit
    dsimp only
    split
    · exact h0
    · split
      · exact h0
      · rename_i hany
        dsimp only
        rw [checkout_fold_eq]
        intro p' hp'
        obtain ⟨p, hp, rfl⟩ := List.mem_map.mp hp'
        have hval : ∀ t ∈ cartItems s.parts cart, t.2.1 ≤ t.1.stock := by
          intro t ht
          by_contra hgt
          exact hany (List.any_eq_true.mpr ⟨t, ht, by simpa using not_le.mp hgt⟩)
        apply dec_foldl_nonneg
        · exact h0 p hp
        · exact hc.sublist (cartItems_ids_sublist s.parts cart)
        · intro t ht hid
          have hmem := (mem_cartItems ht).1
          have hteq : t.1 = p := List.inj_on_of_nodup_map hw hmem hp hid
          rw [← hteq]
          exact hval t ht
  · exact po_receive_parts_nonneg s po_id form h0

/-- C3, witness: the checkout and a receive of the example states keep all
stocks non-negative. -/
theorem C3_witness :
    (∀ p ∈ (checkout_submit exState [(1, 3)]).1.parts, 0 ≤ p.stock) ∧
    (∀ p ∈ (po_receive exState 7 [(1, 10)]).1.parts, 0 ≤ p.stock) :=
  C3_checkout_and_receive_keep_stock_nonneg exState [(1, 3)] 7 [(1, 10)]
    (by decide) (by decide) (by decide)

/-! ## Claim C4 -/

/-- C4.  The PO actions match the state machine exactly: approve succeeds
(to APPROVED) iff the status is DRAFT, send succeeds (to SENT) iff the
status is DRAFT or APPROVED, cancel succeeds (to CANCELED) iff the status
is not RECEIVED, receiving is permitted iff the status is SENT, APPROVED or
PARTIALLY_RECEIVED, and a receive refused by the guard reports
InvalidTransition leaving the PO, the parts and the ledger unchanged (the
approve/send/cancel handlers likewise commit nothing on their error
branch). -/
theorem C4_state_machine (po : PurchaseOrder) (parts : List Part)
    (movements : List StockMovement) (form : List (Nat × Int)) :
    ((po_approve po).map (fun q => q.status) =
      if po.status = .DRAFT then .ok .APPROVED else .error .InvalidTransition) ∧
    ((po_send po).map (fun q => q.status) =
      if po.status = .DRAFT ∨ po.status = .APPROVED then .ok .SENT
      else .error .InvalidTransition) ∧
    ((po_cancel po).map (fun q => q.status) =
      if po.status = .RECEIVED then .error .InvalidTransition else .ok .CANCELED) ∧
    ((po_receive_apply po parts movements form).outcome = .InvalidTransition ↔
      ¬(po.status = .SENT ∨ po.status = .APPROVED ∨
        po.status = .PARTIALLY_RECEIVED)) ∧
    ((po_receive_apply po parts movements form).outcome = .InvalidTransition →
      po_receive_apply po parts movements form =
        ⟨po, parts, movements, .InvalidTransition⟩) := by
  refine ⟨?_, ?_, ?_, ?_, ?_⟩
  · cases hs : po.status <;> simp [po_approve, hs, Except.map]
  · cases hs : po.status <;> simp [po_send, hs, Except.map]
  · cases hs : po.status <;> simp [po_cancel, hs, Except.map]
  · unfold po_receive_apply
    split
    · simp_all
    · dsimp only
      split <;> simp_all
  · unfold po_receive_apply
    split
    · intro _
      rfl
    · dsimp only
      split <;> simp_all

/-! ## Claims C5, C6, C8 -/

/-- When the status guard passes, the lines after a receive call are
exactly the per-line images under `applyLine`. -/
lemma po_receive_apply_items (po : PurchaseOrder) (parts : List Part)
    (movements : List StockMovement) (form : List (Nat × Int))
    (hst : po.status = .SENT ∨ po.status = .APPROVED ∨
      po.status = .PARTIALLY_RECEIVED) :
    (po_receive_apply po parts movements form).po.items
      = po.items.map (applyLine form) := by
  unfold po_receive_apply
  rw [if_neg (not_not_intro hst)]
  dsimp only
  split
  · rename_i hfalse
    have hz := (foldl_receiveStep_any_false form po.id po.items _ hfalse).2
    dsimp only
    symm
    have hmap : po.items.map (applyLine form) = po.items.map (fun it => it) :=
      List.map_congr_left (fun it hit => applyLine_zero form it (hz it hit))
    rw [hmap]
    exact List.map_id' po.items
  · dsimp only
    rw [foldl_receiveStep_items form po.id po.items]
    simp

/-- C5.  On a receive call that passes the status guard, line `qty_ordered`
never changes, `qty_received` never decreases and grows by exactly
`min(requested, max(qty_ordered - qty_received, 0))` (so a missing,
non-positive or fully-received line is a per-line no-op), and
`0 ≤ qty_received ≤ qty_ordered` is preserved line by line. -/
theorem C5_receive_line_bounds (po : PurchaseOrder) (parts : List Part)
    (movements : List StockMovement) (form : List (Nat × Int))
    (hst : po.status = .SENT ∨ po.status = .APPROVED ∨
      po.status = .PARTIALLY_RECEIVED) :
    List.Forall₂ (fun old new =>
        new.id = old.id ∧ new.product_id = old.product_id ∧
        new.qty_ordered = old.qty_ordered ∧
        new.qty_received = old.qty_received +
          min (reqOf form old) (max (old.qty_ordered - old.qty_received) 0) ∧
        old.qty_received ≤ new.qty_received ∧
        (0 ≤ old.qty_received → old.qty_received ≤ old.qty_ordered →
          0 ≤ new.qty_received ∧ new.qty_received ≤ new.qty_ordered))
      po.items (po_receive_apply po parts movements form).po.items := by
  rw [po_receive_apply_items po parts movements form hst,
    List.forall₂_map_right_iff, List.forall₂_same]
  intro it _
  refine ⟨rfl, rfl, rfl, rfl, ?_, ?_⟩
  · have := appliedQty_nonneg form it
    dsimp [applyLine]
    omega
  · intro h1 h2
    have ha := appliedQty_nonneg form it
    have hb := appliedQty_le_remaining form it
    dsimp [applyLine]
    omega

/-- C5, witness: the single-line SENT PO receiving 6 of 10. -/
theorem C5_witness :
    List.Forall₂ (fun old new =>
        new.id = old.id ∧ new.product_id = old.product_id ∧
        new.qty_ordered = old.qty_ordered ∧
        new.qty_received = old.qty_received +
          min (reqOf [(1, 6)] old) (max (old.qty_ordered - old.qty_received) 0) ∧
        old.qty_received ≤ new.qty_received ∧
        (0 ≤ old.qty_received → old.qty_received ≤ old.qty_ordered →
          0 ≤ new.qty_received ∧ new.qty_received ≤ new.qty_ordered))
      scenPO.items (po_receive_apply scenPO scenParts [] [(1, 6)]).po.items :=
  C5_receive_line_bounds scenPO scenParts [] [(1, 6)] (Or.inl rfl)

/-- The body of `po_receive` once the status guard has passed, as a
function of the loop result. -/
lemma po_receive_apply_eq_of_status (po : PurchaseOrder) (parts : List Part)
    (movements : List StockMovement) (form : List (Nat × Int))
    (hst : po.status = .SENT ∨ po.status = .APPROVED ∨
      po.status = .PARTIALLY_RECEIVED) :
    po_receive_apply po parts movements form =
      (fun acc : RecvAcc =>
        if acc.any_received = false then
          (⟨po, parts, movements, .NothingToReceive⟩ : RecvRes)
        else
          ⟨{ po with
              items := acc.items
              status := if acc.items.all (fun li => li.qty_ordered ≤ li.qty_received)
                then .RECEIVED else .PARTIALLY_RECEIVED
              received_at_set :=
                if (if acc.items.all (fun li => li.qty_ordered ≤ li.qty_received)
                    then (POStatus.RECEIVED) else .PARTIALLY_RECEIVED) = .RECEIVED
                then true else po.received_at_set },
            acc.parts, acc.movements, .Received⟩)
        (po.items.foldl (receiveStep form po.id) ⟨[], parts, movements, false⟩) := by
  unfold po_receive_apply
  rw [if_neg (not_not_intro hst)]

/-- Shape of the result of a receive call that applied something: the
recomputed status and the `received_at` stamp. -/
lemma po_receive_apply_received_shape (po : PurchaseOrder) (parts : List Part)
    (movements : List StockMovement) (form : List (Nat × Int))
    (h : (po_receive_apply po parts movements form).outcome = .Received) :
    ((po_receive_apply po parts movements form).po.status = .RECEIVED ∨
      (po_receive_apply po parts movements form).po.status = .PARTIALLY_RECEIVED) ∧
    ((po_receive_apply po parts movements form).po.status = .RECEIVED ↔
      ((po_receive_apply po parts movements form).po.items.all
        (fun li => li.qty_ordered ≤ li.qty_received)) = true) ∧
    ((po_receive_apply po parts movements form).po.received_at_set =
      if (po_receive_apply po parts movements form).po.status = .RECEIVED then true
      else po.received_at_set) := by
  have hst : po.status = .SENT ∨ po.status = .APPROVED ∨
      po.status = .PARTIALLY_RECEIVED := by
    by_contra hst
    unfold po_receive_apply at h
    rw [if_pos hst] at h
    exact absurd h (by simp)
  rw [po_receive_apply_eq_of_status po parts movements form hst] at h ⊢
  dsimp only at h ⊢
  by_cases hany :
    (po.items.foldl (receiveStep form po.id)
      ⟨[], parts, movements, false⟩).any_received = false
  · rw [if_pos hany] at h
    exact absurd h (by simp)
  · rw [if_neg hany] at h ⊢
    dsimp only
    by_cases hall :
      ((po.items.foldl (receiveStep form po.id)
        ⟨[], parts, movements, false⟩).items.all
          (fun li => li.qty_ordered ≤ li.qty_received)) = true
    · simp only [if_pos hall]
      refine ⟨Or.inl trivial, by simp [hall], by simp⟩
    · simp only [if_neg hall]
      refine ⟨Or.inr trivial, by simp [hall], by simp⟩

/-- C6.  After a receive call that applied something (outcome `Received`),
the PO's status is RECEIVED exactly when every line has
`qty_received ≥ qty_ordered` and PARTIALLY_RECEIVED otherwise, and
`received_at` is stamped exactly on the transition to RECEIVED (otherwise
it keeps its previous value).  The spec's partial-then-full scenario
(qty_ordered 10, receive 6 then 4) is checked concretely: call one leaves
PARTIALLY_RECEIVED with `received_at` unset and stock +6, call two leaves
RECEIVED with `received_at` set and stock +10. -/
theorem C6_receive_status_recompute (po : PurchaseOrder) (parts : List Part)
    (movements : List StockMovement) (form : List (Nat × Int))
    (h : (po_receive_apply po parts movements form).outcome = .Received) :
    ((po_receive_apply po parts movements form).po.status = .RECEIVED ∨
      (po_receive_apply po parts movements form).po.status = .PARTIALLY_RECEIVED) ∧
    ((po_receive_apply po parts movements form).po.status = .RECEIVED ↔
      ∀ li ∈ (po_receive_apply po parts movements form).po.items,
        li.qty_ordered ≤ li.qty_received) ∧
    ((po_receive_apply po parts movements form).po.received_at_set =
      if (po_receive_apply po parts movements form).po.status = .RECEIVED then true
      else po.received_at_set) ∧
    ((po_receive_apply scenPO scenParts [] [(1, 6)]).po.status
      = .PARTIALLY_RECEIVED) ∧
    ((po_receive_apply scenPO scenParts [] [(1, 6)]).po.received_at_set = false) ∧
    (partsStock (po_receive_apply scenPO scenParts [] [(1, 6)]).parts 1 = 6) ∧
    ((po_receive_apply (po_receive_apply scenPO scenParts [] [(1, 6)]).po
        (po_receive_apply scenPO scenParts [] [(1, 6)]).parts
        (po_receive_apply scenPO scenParts [] [(1, 6)]).movements
        [(1, 4)]).po.status = .RECEIVED) ∧
    ((po_receive_apply (po_receive_apply scenPO scenParts [] [(1, 6)]).po
        (po_receive_apply scenPO scenParts [] [(1, 6)]).parts
        (po_receive_apply scenPO scenParts [] [(1, 6)]).movements
        [(1, 4)]).po.received_at_set = true) ∧
    (partsStock (po_receive_apply (po_receive_apply scenPO scenParts [] [(1, 6)]).po
        (po_receive_apply scenPO scenParts [] [(1, 6)]).parts
        (po_receive_apply scenPO scenParts [] [(1, 6)]).movements
        [(1, 4)]).parts 1 = 10) := by
  obtain ⟨h1, h2, h3⟩ := po_receive_apply_received_shape po parts movements form h
  refine ⟨h1, ?_, h3, by decide, by decide, by decide, by decide, by decide,
    by decide⟩
  rw [h2, List.all_eq_true]
  simp

/-- C6, witness: the first scenario call applied 6, so the theorem applies
to it; its status lands in the recomputed pair. -/
theorem C6_witness :
    (po_receive_apply scenPO scenParts [] [(1, 6)]).po.status = .RECEIVED ∨
    (po_receive_apply scenPO scenParts [] [(1, 6)]).po.status
      = .PARTIALLY_RECEIVED :=
  (C6_receive_status_recompute scenPO scenParts [] [(1, 6)] (by decide)).1

/-! ## Claim C8 -/

/-- C8, counterexample.  A single-line PO (qty_ordered 10) fully received
in one call becomes RECEIVED; the second call with the same requested
delta is then rejected by the status guard and reports InvalidTransition
— not NothingToReceive as the claim states — though it does change
nothing. -/
theorem C8_counterexample :
    (po_receive c8State 7 [(1, 10)]).2 = .Received ∧
    (∀ q ∈ c8After.pos, q.status = .RECEIVED ∧
      ∀ it ∈ q.items, it.qty_ordered ≤ it.qty_received) ∧
    (po_receive c8After 7 [(1, 10)]).2 = .InvalidTransition ∧
    (po_receive c8After 7 [(1, 10)]).2 ≠ .NothingToReceive ∧
    (po_receive c8After 7 [(1, 10)]).1 = c8After :=
  ⟨by decide, by decide, by decide, by decide, by decide⟩

/-- C8, amended.  Re-submitting deltas that are already fully satisfied is
a harmless no-op: if the PO is still in a receivable state and every line
either gets no positive request or is already fully received, the call
reports NothingToReceive and returns the state unchanged — no part stock,
no line `qty_received`, no PO status changes.  If instead the first call
fully received *every* line, the PO became RECEIVED and the repeat call is
rejected by the status guard as an invalid transition (still changing
nothing), rather than reporting NothingToReceive. -/
theorem C8_repeat_receive_is_noop (s : State) (po_id : Nat)
    (form : List (Nat × Int)) (po : PurchaseOrder)
    (hfind : s.pos.find? (fun q => q.id = po_id) = some po)
    (hst : po.status = .SENT ∨ po.status = .APPROVED ∨
      po.status = .PARTIALLY_RECEIVED)
    (hskip : ∀ it ∈ po.items, reqOf form it = 0 ∨
      it.qty_ordered ≤ it.qty_received) :
    po_receive s po_id form = (s, .NothingToReceive) := by
  have hz : ∀ it ∈ po.items, appliedQty form it = 0 := by
    intro it hit
    have hr := reqOf_nonneg form it
    rcases hskip it hit with hzero | hfull
    · unfold appliedQty
      rw [hzero]
      omega
    · unfold appliedQty
      omega
  have happly : po_receive_apply po s.parts s.movements form
      = ⟨po, s.parts, s.movements, .NothingToReceive⟩ := by
    unfold po_receive_apply
    rw [if_neg (not_not_intro hst)]
    dsimp only
    rw [foldl_receiveStep_noop form po.id po.items hz]
    rfl
  unfold po_receive
  rw [hfind]
  dsimp only
  rw [happly]

/-- C8, witness: the two-line PARTIALLY_RECEIVED PO whose first line is
already full ignores a repeated delta of 6 on that line. -/
theorem C8_witness :
    po_receive wState 9 [(1, 6)] = (wState, .NothingToReceive) :=
  C8_repeat_receive_is_noop wState 9 [(1, 6)] wPO (by decide) (by decide)
    (by decide)

/-! ## Claim C7 -/

/-- C7.  When any resolved cart line requests more than the part's current
stock, the whole checkout fails with InsufficientStock and the state is
returned untouched: no part's stock is decremented and no Order or
OrderItem row is persisted (validation runs before any mutation). -/
theorem C7_checkout_aborts_on_insufficient_stock (s : State)
    (cart : List (Nat × Int))
    (h : ∃ t ∈ cartItems s.parts cart, t.1.stock < t.2.1) :
    checkout_submit s cart = (s, .InsufficientStock) ∧
    (checkout_submit s cart).1.parts = s.parts ∧
    (checkout_submit s cart).1.orders = s.orders ∧
    (checkout_submit s cart).1.orderItems = s.orderItems := by
  obtain ⟨t, ht, hlt⟩ := h
  have hne : (cartItems s.parts cart).isEmpty = false := by
    cases hi : cartItems s.parts cart
    · simp_all
    · simp [List.isEmpty]
  have hany : (cartItems s.parts cart).any (fun t => t.1.stock < t.2.1) = true := by
    rw [List.any_eq_true]
    exact ⟨t, ht, by simpa using hlt⟩
  have key : checkout_submit s cart = (s, .InsufficientStock) := by
    unfold checkout_submit
    dsimp only
    rw [hne, hany]
    simp
  exact ⟨key, by rw [key], by rw [key], by rw [key]⟩

/-- C7, witness: a cart asking 13 of the part holding 12 aborts. -/
theorem C7_witness :
    checkout_submit exState [(1, 13)] = (exState, .InsufficientStock) ∧
    (checkout_submit exState [(1, 13)]).1.parts = exState.parts ∧
    (checkout_submit exState [(1, 13)]).1.orders = exState.orders ∧
    (checkout_submit exState [(1, 13)]).1.orderItems = exState.orderItems :=
  C7_checkout_aborts_on_insufficient_stock exState [(1, 13)] (by decide)

/-! ## Claim C9 -/

/-- C9.  `suggested_reorder_qty` is 0 exactly on parts that are not
low-stock and strictly positive on low-stock parts, where it equals
`max (max (reorder_threshold * 2) (stock + 1) - stock) 1`; on
threshold 10 / stock 4 it suggests 16, and the boundary part with
threshold 5 / stock 5 counts as low-stock and gets 5. -/
theorem C9_suggested_reorder_qty (p : Part) (h : is_low_stock p = true) :
    0 < suggested_reorder_qty p ∧
    suggested_reorder_qty p =
      max (max (p.reorder_threshold * 2) (p.stock + 1) - p.stock) 1 ∧
    (∀ q : Part, is_low_stock q = false → suggested_reorder_qty q = 0) ∧
    suggested_reorder_qty ⟨1, 0, 4, 10⟩ = 16 ∧
    suggested_reorder_qty ⟨2, 0, 5, 5⟩ = 5 ∧
    is_low_stock ⟨2, 0, 5, 5⟩ = true := by
  refine ⟨?_, by simp [suggested_reorder_qty, h], ?_, by decide, by decide, by decide⟩
  · simp only [suggested_reorder_qty, h, if_true]
    omega
  · intro q hq
    simp [suggested_reorder_qty, hq]

/-- C9, witness: the spec's threshold 10 / stock 4 part. -/
theorem C9_witness :
    0 < suggested_reorder_qty ⟨1, 0, 4, 10⟩ ∧
    suggested_reorder_qty ⟨1, 0, 4, 10⟩ = 16 :=
  ⟨(C9_suggested_reorder_qty ⟨1, 0, 4, 10⟩ (by decide)).1,
   (C9_suggested_reorder_qty ⟨1, 0, 4, 10⟩ (by decide)).2.2.2.1⟩

/-! ## Claim C10 -/

/-- C10.  Canceling a PO touches nothing but the canceled PO's status
field: the parts table, the ledger, the orders and order items are
unchanged, and every PO keeps its lines verbatim — each PO is either
untouched or (when it is the addressed, non-RECEIVED one) identical except
for its status becoming CANCELED; stock already received is not
reversed. -/
theorem C10_cancel_changes_only_status (s : State) (po_id : Nat) :
    (po_cancel_state s po_id).parts = s.parts ∧
    (po_cancel_state s po_id).movements = s.movements ∧
    (po_cancel_state s po_id).orders = s.orders ∧
    (po_cancel_state s po_id).orderItems = s.orderItems ∧
    List.Forall₂ (fun q q' =>
        q'.id = q.id ∧ q'.items = q.items ∧
        (q' = q ∨ (q.id = po_id ∧ q.status ≠ .RECEIVED ∧
          q' = { q with status := .CANCELED })))
      s.pos (po_cancel_state s po_id).pos := by
  refine ⟨rfl, rfl, rfl, rfl, ?_⟩
  show List.Forall₂ _ s.pos (s.pos.map _)
  rw [List.forall₂_map_right_iff, List.forall₂_same]
  intro q _
  unfold po_cancel
  by_cases hid : q.id = po_id
  · rw [if_pos hid]
    by_cases hr : q.status = POStatus.RECEIVED
    · rw [if_pos hr]
      exact ⟨rfl, rfl, Or.inl rfl⟩
    · rw [if_neg hr]
      exact ⟨rfl, rfl, Or.inr ⟨hid, hr, rfl⟩⟩
  · rw [if_neg hid]
    exact ⟨rfl, rfl, Or.inl rfl⟩

end GearShift
